import Mathlib

/-!
# gofast: the HTTP client wrapper of `client.go`

A shallow embedding of `New`, the five verb methods and the shared dispatch
routine `do`.  The collaborators of the routine (request encoder, transport,
error handler, response decoder) are function values; every call of one of
them is recorded in a trace, so that "is invoked" and "is never invoked" are
statements about the trace of a run.
-/

namespace Gofast

/-! ## Go values used by `client.go` -/

/-- A Go `error` value: either an error without a cause, or an error that
wraps a cause (what `fmt.Errorf` builds for the verb `%w`).  A nil `error` is
`none` in `Option GoError`. -/
inductive GoError where
  | base (msg : String)
  | wrapped (msg : String) (cause : GoError)
  deriving DecidableEq

/-- The method `Error()` of a Go error: its message. -/
def GoError.Error : GoError → String
  | .base msg => msg
  | .wrapped msg _ => msg

/-- The function `errors.Unwrap`: the wrapped cause, if any. -/
def GoError.Unwrap : GoError → Option GoError
  | .base _ => none
  | .wrapped _ cause => some cause

/-- The call `fmt.Errorf(label + "%w", err)`: the message is the text of the
format before the verb followed by the message of `err`, and the result
unwraps to `err`. -/
def Errorf (label : String) (err : GoError) : GoError :=
  .wrapped (label ++ err.Error) err

/-- The type `Header` (client.go line 9): a Go `map[string]string`, given as
the list of its entries in the order in which the `range` loop of `do` visits
them.  The keys of a map are distinct; a nil map has no entry. -/
abbrev Header := List (String × String)

/-- A `fasthttp.Request` as far as `do` touches it: target URI, method, body,
and under `header` the record of the calls `req.Header.Set(k, v)` made on the
request, in order, each with the name and the value as they were passed.  How
fasthttp stores a call (canonical names, names it manages itself, line breaks
in values) is the library's business and is not modelled. -/
structure Request where
  uri : String
  method : String
  header : List (String × String)
  body : String
  deriving DecidableEq

/-- A `fasthttp.Response` as far as `do` reads it: status code and body. -/
structure Response where
  statusCode : Int
  body : String
  deriving DecidableEq

/-- The call `fasthttp.AcquireRequest()`: a blank request. -/
def AcquireRequest : Request := { uri := "", method := "", header := [], body := "" }

/-- The call `fasthttp.AcquireResponse()`: a blank response, whose
`StatusCode()` reads 200. -/
def AcquireResponse : Response := { statusCode := 200, body := "" }

/-- The method `req.SetRequestURI`. -/
def Request.SetRequestURI (req : Request) (uri : String) : Request :=
  { req with uri := uri }

/-- The method `req.Header.SetMethod`. -/
def Request.SetMethod (req : Request) (method : String) : Request :=
  { req with method := method }

/-- The method `req.Header.Set(k, v)`: the call is added to the record. -/
def Request.HeaderSet (req : Request) (k v : String) : Request :=
  { req with header := req.header ++ [(k, v)] }

/-- The constants `fasthttp.MethodGet` and its siblings. -/
def MethodGet : String := "GET"
def MethodPost : String := "POST"
def MethodPut : String := "PUT"
def MethodPatch : String := "PATCH"
def MethodDelete : String := "DELETE"

/-! ## Pluggable behaviours and the client -/

/-- Modelled from the spec: the function type `RequestEncoder`, declared
outside `client.go` and called as `c.requestEncoder(req, in)`; it receives the
request and the input value, may rewrite the request, and returns an error or
nil. -/
abbrev RequestEncoder (α : Type) := Request → α → Request × Option GoError

/-- Modelled from the spec: the function type `ResponseDecoder`, declared
outside `client.go` and called as `c.responseDecoder(resp, out)`; it receives
the response and the output destination, may rewrite the destination, and
returns an error or nil. -/
abbrev ResponseDecoder (β : Type) := Response → β → β × Option GoError

/-- Modelled from the spec: the function type `ErrorHandler`, declared outside
`client.go` and called as `c.errorHandler(resp)`; it maps the response to an
error or nil. -/
abbrev ErrorHandler := Response → Option GoError

/-- The fields of `fasthttp.Client` that `New` sets. -/
structure FastClient where
  Name : String
  NoDefaultUserAgentHeader : Bool
  ReadTimeout : Int
  WriteTimeout : Int
  deriving DecidableEq

/-- The network behind `fasthttp.Client.Do(req, resp)`: from the transport
handle, the request and the response object it yields the filled response and
an error or nil. -/
abbrev Network := FastClient → Request → Response → Response × Option GoError

/-- The struct `Client` (client.go lines 11-16).  A pointer or function field
of a Go struct may be nil, which is `none`. -/
structure Client (α β : Type) where
  fastClient : Option FastClient
  errorHandler : Option ErrorHandler
  requestEncoder : Option (RequestEncoder α)
  responseDecoder : Option (ResponseDecoder β)

/-- Modelled from the spec: the struct `Config`, which is declared outside
`client.go`.  Section 3 of the spec lists its fields and `New` reads exactly
these; each has its Go zero value `""`, `0`, `false` or nil (`none`). -/
structure Config (α β : Type) where
  Name : String := ""
  ReadTimeout : Int := 0
  WriteTimeout : Int := 0
  NoDefaultUserAgentHeader : Bool := false
  RequestEncoder : Option (RequestEncoder α) := none
  ResponseDecoder : Option (ResponseDecoder β) := none
  ErrorHandler : Option ErrorHandler := none

/-- The module-level defaults that `New` refers to (`defaultUserAgent`,
`defaultTimeout`, `jsonRequestEncoder`, `jsonResponseDecoder`,
`defaultErrorHandler`); they are declared outside `client.go` and are taken
as parameters.  The three functions are declared functions, hence non-nil. -/
structure Defaults (α β : Type) where
  defaultUserAgent : String
  defaultTimeout : Int
  jsonRequestEncoder : RequestEncoder α
  jsonResponseDecoder : ResponseDecoder β
  defaultErrorHandler : ErrorHandler

/-- The function `New` (client.go lines 18-55). -/
def New {α β : Type} (D : Defaults α β) (config : List (Config α β)) : Client α β :=
  let cfg : Config α β := match config with
    | [] => {}
    | c :: _ => c
  let cfg := if cfg.Name = "" then { cfg with Name := D.defaultUserAgent } else cfg
  let cfg := if cfg.ReadTimeout = 0 then { cfg with ReadTimeout := D.defaultTimeout } else cfg
  let cfg := if cfg.WriteTimeout = 0 then { cfg with WriteTimeout := D.defaultTimeout } else cfg
  let cfg := if cfg.RequestEncoder.isNone
    then { cfg with RequestEncoder := some D.jsonRequestEncoder } else cfg
  let cfg := if cfg.ResponseDecoder.isNone
    then { cfg with ResponseDecoder := some D.jsonResponseDecoder } else cfg
  let cfg := if cfg.ErrorHandler.isNone
    then { cfg with ErrorHandler := some D.defaultErrorHandler } else cfg
  { fastClient := some
      { Name := cfg.Name
        NoDefaultUserAgentHeader := cfg.NoDefaultUserAgentHeader
        ReadTimeout := cfg.ReadTimeout
        WriteTimeout := cfg.WriteTimeout }
    errorHandler := cfg.ErrorHandler
    requestEncoder := cfg.RequestEncoder
    responseDecoder := cfg.ResponseDecoder }

/-! ## The dispatch routine -/

/-- What a run of `do` does, in order: each call of a collaborator with what
it was given and what it returned, the reading of the status code, and the
deferred release of the request/response pair. -/
inductive Event where
  -- The request encoder was called on `req` and returned `err`.
  | encode (req : Request) (err : Option GoError)
  -- The transport was called with `req`, filled `resp` and returned `err`.
  | send (req : Request) (resp : Response) (err : Option GoError)
  -- The status code of the response was examined (line 101).
  | status (code : Int)
  -- The error handler was called on `resp` and returned `ret`.
  | handle (resp : Response) (ret : Option GoError)
  -- The response decoder was called on `resp` and returned `err`.
  | decode (resp : Response) (err : Option GoError)
  -- The deferred function released the request and the response.
  | release
  deriving DecidableEq

/-- How a run of `do` ends: it returns an error or nil, or it panics (a call
through a nil function value or a nil transport handle). -/
inductive Outcome where
  | returned (err : Option GoError)
  | panicked
  deriving DecidableEq

/-- The result of a run of `do`: how it ended, the content of the output
destination afterwards (`none` when `out` was nil) and the trace. -/
structure DoResult (β : Type) where
  outcome : Outcome
  out : Option β
  trace : List Event

/-- An exit of `do`: the deferred release runs last on every path. -/
def finish {β : Type} (o : Outcome) (out : Option β) (tr : List Event) : DoResult β :=
  { outcome := o, out := out, trace := tr ++ [Event.release] }

/-- Lines 87-89 of `do`: every entry of the header mapping is set on the
request. -/
def applyHeader (req : Request) (header : Header) : Request :=
  header.foldl (fun r kv => r.HeaderSet kv.1 kv.2) req

/-- Lines 105-111 of `do`: the decode step and the final return. -/
def doDecode {α β : Type} (c : Client α β) (resp : Response) (out : Option β)
    (tr : List Event) : DoResult β :=
  match out with
  | none => finish (.returned none) none tr
  | some dest =>
    match c.responseDecoder with
    | none => finish .panicked out tr
    | some dec =>
      match dec resp dest with
      | (dest', some err) =>
        finish (.returned (some (Errorf "decode response: " err))) (some dest')
          (tr ++ [Event.decode resp (some err)])
      | (dest', none) =>
        finish (.returned none) (some dest') (tr ++ [Event.decode resp none])

/-- Lines 101-103 of `do`: the status check and the call of the error
handler, followed by the decode step. -/
def doStatus {α β : Type} (c : Client α β) (resp : Response) (out : Option β)
    (tr : List Event) : DoResult β :=
  let tr := tr ++ [Event.status resp.statusCode]
  if resp.statusCode < 200 ∨ resp.statusCode > 299 then
    match c.errorHandler with
    | none => finish .panicked out tr
    | some handler =>
      finish (.returned (handler resp)) out (tr ++ [Event.handle resp (handler resp)])
  else
    doDecode c resp out tr

/-- Lines 97-99 of `do`: the call of the transport, followed by the status
check. -/
def doSend {α β : Type} (net : Network) (c : Client α β) (req : Request) (resp : Response)
    (out : Option β) (tr : List Event) : DoResult β :=
  match c.fastClient with
  | none => finish .panicked out tr
  | some fc =>
    match net fc req resp with
    | (resp', some err) =>
      finish (.returned (some (Errorf "send request: " err))) out
        (tr ++ [Event.send req resp' (some err)])
    | (resp', none) =>
      doStatus c resp' out (tr ++ [Event.send req resp' none])

/-- The method `Client.do` (client.go lines 77-112). -/
def Client.do {α β : Type} (net : Network) (c : Client α β) (uri method : String)
    (input : Option α) (out : Option β) (header : Header) : DoResult β :=
  let req := AcquireRequest
  let resp := AcquireResponse
  let req := req.SetRequestURI uri
  let req := req.SetMethod method
  let req := applyHeader req header
  match input with
  | none => doSend net c req resp out []
  | some v =>
    match c.requestEncoder with
    | none => finish .panicked out []
    | some enc =>
      match enc req v with
      | (_, some err) =>
        finish (.returned (some (Errorf "encode request: " err))) out
          [Event.encode req (some err)]
      | (req', none) =>
        doSend net c req' resp out [Event.encode req none]

/-- The method `Client.Get` (line 57). -/
def Client.Get {α β : Type} (net : Network) (c : Client α β) (uri : String)
    (out : Option β) (header : Header) : DoResult β :=
  c.do net uri MethodGet none out header

/-- The method `Client.Post` (line 61). -/
def Client.Post {α β : Type} (net : Network) (c : Client α β) (uri : String)
    (input : Option α) (out : Option β) (header : Header) : DoResult β :=
  c.do net uri MethodPost input out header

/-- The method `Client.Put` (line 65). -/
def Client.Put {α β : Type} (net : Network) (c : Client α β) (uri : String)
    (input : Option α) (out : Option β) (header : Header) : DoResult β :=
  c.do net uri MethodPut input out header

/-- The method `Client.Patch` (line 69). -/
def Client.Patch {α β : Type} (net : Network) (c : Client α β) (uri : String)
    (input : Option α) (out : Option β) (header : Header) : DoResult β :=
  c.do net uri MethodPatch input out header

/-- The method `Client.Delete` (line 73). -/
def Client.Delete {α β : Type} (net : Network) (c : Client α β) (uri : String)
    (input : Option α) (out : Option β) (header : Header) : DoResult β :=
  c.do net uri MethodDelete input out header

/-! ## Phases of a run -/

/-- The four phases of `do` that can fail. -/
inductive Phase where
  | encode
  | send
  | status
  | decode
  deriving DecidableEq

/-- The phase whose execution an event records; the call of the error handler
belongs to the status phase already recorded, and the release is no phase. -/
def Event.phase : Event → Option Phase
  | .encode _ _ => some .encode
  | .send _ _ _ => some .send
  | .status _ => some .status
  | .decode _ _ => some .decode
  | .handle _ _ => none
  | .release => none

/-- An event that records the failure of its phase: a collaborator returned a
non-nil error, or the status code was outside [200,299]. -/
def Event.failed : Event → Bool
  | .encode _ err => err.isSome
  | .send _ _ err => err.isSome
  | .status code => decide (code < 200 ∨ code > 299)
  | .decode _ err => err.isSome
  | .handle _ _ => false
  | .release => false

/-- The phases that a run executed, in order. -/
def executedPhases (tr : List Event) : List Phase :=
  tr.filterMap Event.phase

/-- The phases that failed in a run, in order. -/
def failedPhases (tr : List Event) : List Phase :=
  (tr.filter Event.failed).filterMap Event.phase

/-- The events of a trace that are calls of the response decoder. -/
def Event.isDecode : Event → Bool
  | .decode _ _ => true
  | _ => false

/-! ## Sample collaborators -/

/-- Sample defaults: an encoder that stores the input as body and sets the
content type, a decoder that copies the body, a handler that reports the
body. -/
def sampleDefaults : Defaults String String :=
  { defaultUserAgent := "gofast"
    defaultTimeout := 30
    jsonRequestEncoder := fun req v =>
      ({ req.HeaderSet "Content-Type" "application/json" with body := v }, none)
    jsonResponseDecoder := fun resp _ => (resp.body, none)
    defaultErrorHandler := fun resp => some (.base resp.body) }

/-- A client built with the sample defaults only. -/
def sampleClient : Client String String := New sampleDefaults []

/-- A client whose request encoder always fails. -/
def brokenEncoderClient : Client String String :=
  New sampleDefaults [{ RequestEncoder := some (fun req _ => (req, some (.base "boom"))) }]

/-- A client whose response decoder always fails. -/
def brokenDecoderClient : Client String String :=
  New sampleDefaults [{ ResponseDecoder := some (fun _ d => (d, some (.base "bad body"))) }]

/-- A client whose error handler accepts every response. -/
def lenientClient : Client String String :=
  New sampleDefaults [{ ErrorHandler := some (fun _ => none) }]

/-- A network that answers every request with 200 and a body. -/
def net200 : Network := fun _ _ resp => ({ resp with statusCode := 200, body := "hello" }, none)

/-- A network that answers every request with 404. -/
def net404 : Network := fun _ _ resp => ({ resp with statusCode := 404, body := "not found" }, none)

/-- A network that fails on every request. -/
def netDown : Network := fun _ _ resp => (resp, some (.base "dial failed"))

/-! ## The paths through `do` -/

/-- The request that `do` has built when it reaches the encode step: a blank
request with the URI, the method and the header entries set (lines 78-89). -/
def builtRequest (uri method : String) (header : Header) : Request :=
  applyHeader ((AcquireRequest.SetRequestURI uri).SetMethod method) header

/-- The trace of a passed encode step: nothing when no input was supplied,
otherwise the successful call of the encoder on the built request `req0`. -/
def encodeTrace {α : Type} (input : Option α) (req0 : Request) : List Event :=
  match input with
  | none => []
  | some _ => [Event.encode req0 none]

/-- The encode step was passed: either no input was supplied and the request
is still the built request `req0`, or the encoder turned `req0` into `req`
without an error. -/
def Encoded {α β : Type} (c : Client α β) (input : Option α) (req0 req : Request) : Prop :=
  match input with
  | none => req = req0
  | some v => ∃ enc, c.requestEncoder = some enc ∧ enc req0 v = (req, none)

/-- The transport was passed as well: the handle is there and the network
answered the request `req` with `resp` and no error. -/
def Sent {α β : Type} (net : Network) (c : Client α β) (input : Option α)
    (req0 req : Request) (resp : Response) : Prop :=
  Encoded c input req0 req ∧
  ∃ fc, c.fastClient = some fc ∧ net fc req AcquireResponse = (resp, none)

/-- The ten paths through `do`, each with the result it produces. -/
inductive Run {α β : Type} (net : Network) (c : Client α β) (input : Option α)
    (out : Option β) (req0 : Request) : DoResult β → Prop where
  | nilEncoder (v : α) : input = some v → c.requestEncoder = none →
      Run net c input out req0 (finish .panicked out [])
  | encodeFail (v : α) (enc : RequestEncoder α) (req : Request) (e : GoError) :
      input = some v → c.requestEncoder = some enc → enc req0 v = (req, some e) →
      Run net c input out req0
        (finish (.returned (some (Errorf "encode request: " e))) out
          [Event.encode req0 (some e)])
  | nilTransport (req : Request) :
      Encoded c input req0 req → c.fastClient = none →
      Run net c input out req0 (finish .panicked out (encodeTrace input req0))
  | sendFail (req : Request) (fc : FastClient) (resp : Response)
      (e : GoError) :
      Encoded c input req0 req → c.fastClient = some fc →
      net fc req AcquireResponse = (resp, some e) →
      Run net c input out req0
        (finish (.returned (some (Errorf "send request: " e))) out
          (encodeTrace input req0 ++ [Event.send req resp (some e)]))
  | nilHandler (req : Request) (resp : Response) :
      Sent net c input req0 req resp →
      (resp.statusCode < 200 ∨ resp.statusCode > 299) → c.errorHandler = none →
      Run net c input out req0
        (finish .panicked out (encodeTrace input req0 ++ [Event.send req resp none, Event.status resp.statusCode]))
  | handled (req : Request) (resp : Response) (h : ErrorHandler) :
      Sent net c input req0 req resp →
      (resp.statusCode < 200 ∨ resp.statusCode > 299) → c.errorHandler = some h →
      Run net c input out req0
        (finish (.returned (h resp)) out
          (encodeTrace input req0 ++ [Event.send req resp none, Event.status resp.statusCode,
            Event.handle resp (h resp)]))
  | noOut (req : Request) (resp : Response) :
      Sent net c input req0 req resp →
      (200 ≤ resp.statusCode ∧ resp.statusCode ≤ 299) → out = none →
      Run net c input out req0
        (finish (.returned none) none
          (encodeTrace input req0 ++ [Event.send req resp none, Event.status resp.statusCode]))
  | nilDecoder (req : Request) (resp : Response) (d : β) :
      Sent net c input req0 req resp →
      (200 ≤ resp.statusCode ∧ resp.statusCode ≤ 299) → out = some d →
      c.responseDecoder = none →
      Run net c input out req0
        (finish .panicked out (encodeTrace input req0 ++ [Event.send req resp none, Event.status resp.statusCode]))
  | decodeFail (req : Request) (resp : Response) (d : β)
      (dec : ResponseDecoder β) (d' : β) (e : GoError) :
      Sent net c input req0 req resp →
      (200 ≤ resp.statusCode ∧ resp.statusCode ≤ 299) → out = some d →
      c.responseDecoder = some dec → dec resp d = (d', some e) →
      Run net c input out req0
        (finish (.returned (some (Errorf "decode response: " e))) (some d')
          (encodeTrace input req0 ++ [Event.send req resp none, Event.status resp.statusCode,
            Event.decode resp (some e)]))
  | decodeOk (req : Request) (resp : Response) (d : β)
      (dec : ResponseDecoder β) (d' : β) :
      Sent net c input req0 req resp →
      (200 ≤ resp.statusCode ∧ resp.statusCode ≤ 299) → out = some d →
      c.responseDecoder = some dec → dec resp d = (d', none) →
      Run net c input out req0
        (finish (.returned none) (some d')
          (encodeTrace input req0 ++ [Event.send req resp none, Event.status resp.statusCode,
            Event.decode resp none]))

/-! ## Every run of `do` follows one of the paths -/

theorem doDecode_run {α β : Type} (net : Network) (c : Client α β) (input : Option α)
    (out : Option β) (req0 req : Request) (resp : Response)
    (hs : Sent net c input req0 req resp)
    (hok : 200 ≤ resp.statusCode ∧ resp.statusCode ≤ 299) :
    Run net c input out req0
      (doDecode c resp out
        (encodeTrace input req0 ++ [Event.send req resp none] ++ [Event.status resp.statusCode])) := by
  unfold doDecode
  cases out with
  | none => simpa using Run.noOut req resp hs hok rfl
  | some d =>
    cases hdec : c.responseDecoder with
    | none => simpa using Run.nilDecoder req resp d hs hok rfl hdec
    | some dec =>
      rcases hres : dec resp d with ⟨d', _ | e⟩
      · simpa [hres] using Run.decodeOk req resp d dec d' hs hok rfl hdec hres
      · simpa [hres] using Run.decodeFail req resp d dec d' e hs hok rfl hdec hres

theorem doStatus_run {α β : Type} (net : Network) (c : Client α β) (input : Option α)
    (out : Option β) (req0 req : Request) (resp : Response)
    (hs : Sent net c input req0 req resp) :
    Run net c input out req0
      (doStatus c resp out (encodeTrace input req0 ++ [Event.send req resp none])) := by
  unfold doStatus
  by_cases hbad : resp.statusCode < 200 ∨ resp.statusCode > 299
  · cases hh : c.errorHandler with
    | none => simpa [hbad] using (Run.nilHandler req resp hs hbad hh : Run net c input out req0 _)
    | some h => simpa [hbad] using (Run.handled req resp h hs hbad hh : Run net c input out req0 _)
  · have hok : 200 ≤ resp.statusCode ∧ resp.statusCode ≤ 299 := by omega
    simpa [hbad] using doDecode_run net c input out req0 req resp hs hok

theorem doSend_run {α β : Type} (net : Network) (c : Client α β) (input : Option α)
    (out : Option β) (req0 req : Request) (he : Encoded c input req0 req) :
    Run net c input out req0
      (doSend net c req AcquireResponse out (encodeTrace input req0)) := by
  unfold doSend
  cases hfc : c.fastClient with
  | none => simpa using (Run.nilTransport req he hfc : Run net c input out req0 _)
  | some fc =>
    rcases hres : net fc req AcquireResponse with ⟨resp, _ | e⟩
    · simpa [hres] using doStatus_run net c input out req0 req resp ⟨he, fc, hfc, hres⟩
    · simpa [hres] using (Run.sendFail req fc resp e he hfc hres : Run net c input out req0 _)

theorem do_run {α β : Type} (net : Network) (c : Client α β) (uri method : String)
    (input : Option α) (out : Option β) (header : Header) :
    Run net c input out (builtRequest uri method header)
      (c.do net uri method input out header) := by
  have hb : applyHeader ((AcquireRequest.SetRequestURI uri).SetMethod method) header
      = builtRequest uri method header := rfl
  unfold Client.do
  simp only [hb]
  cases input with
  | none => exact doSend_run net c none out (builtRequest uri method header) _ rfl
  | some v =>
    cases henc : c.requestEncoder with
    | none => exact Run.nilEncoder v rfl henc
    | some enc =>
      rcases hres : enc (builtRequest uri method header) v with ⟨req, _ | e⟩
      · simp only [hres]
        exact doSend_run net c (some v) out (builtRequest uri method header) req
          ⟨enc, henc, hres⟩
      · simp only [hres]
        exact Run.encodeFail v enc req e rfl henc hres

/-! ## The header loop -/

/-- Claim C1: when the transport returned a response, a status code in
[200,299] means the error handler is not invoked, and a status code outside
that range means the response decoder is not invoked and `do` returns exactly
what the configured error handler returned for that response. -/
theorem do_status_routing {α β : Type} (net : Network) (c : Client α β) (uri method : String)
    (input : Option α) (out : Option β) (header : Header) (req : Request) (resp : Response)
    (hsend : Event.send req resp none ∈ (c.do net uri method input out header).trace) :
    ((200 ≤ resp.statusCode ∧ resp.statusCode ≤ 299) →
        ∀ r ret, Event.handle r ret ∉ (c.do net uri method input out header).trace) ∧
    (¬ (200 ≤ resp.statusCode ∧ resp.statusCode ≤ 299) →
        (∀ r e, Event.decode r e ∉ (c.do net uri method input out header).trace) ∧
        ∀ h, c.errorHandler = some h →
          (c.do net uri method input out header).outcome = Outcome.returned (h resp) ∧
          Event.handle resp (h resp) ∈ (c.do net uri method input out header).trace) := by
  have hrun := do_run net c uri method input out header
  generalize c.do net uri method input out header = r at hrun hsend ⊢
  cases input <;> cases hrun <;> simp_all [finish, encodeTrace]
  all_goals (intros; omega)

theorem do_status_routing_witness :
    (sampleClient.do net404 "https://example/missing" "GET" none (some "") []).outcome
      = Outcome.returned (some (GoError.base "not found")) :=
  (((do_status_routing net404 sampleClient "https://example/missing" "GET" none (some "") []
      (builtRequest "https://example/missing" "GET" []) ⟨404, "not found"⟩ (by decide)).2
      (by decide)).2 sampleDefaults.defaultErrorHandler rfl).1

/-- Claim C2: when an input is supplied and the request encoder returns an
error `e` on the request built so far, `do` returns the error
`encode request: ` wrapping `e`, and the whole run consists of that one call
of the encoder and the release: no transport, error handler or decoder call,
and the output destination keeps its content. -/
theorem do_encode_failure {α β : Type} (net : Network) (c : Client α β) (uri method : String)
    (v : α) (out : Option β) (header : Header) (enc : RequestEncoder α) (e : GoError)
    (henc : c.requestEncoder = some enc)
    (hfail : (enc (builtRequest uri method header) v).2 = some e) :
    (c.do net uri method (some v) out header).outcome
        = Outcome.returned (some (Errorf "encode request: " e)) ∧
    (Errorf "encode request: " e).Unwrap = some e ∧
    (Errorf "encode request: " e).Error = "encode request: " ++ e.Error ∧
    (c.do net uri method (some v) out header).trace
        = [Event.encode (builtRequest uri method header) (some e), Event.release] ∧
    (∀ rq rs er, Event.send rq rs er ∉ (c.do net uri method (some v) out header).trace) ∧
    (∀ rs ret, Event.handle rs ret ∉ (c.do net uri method (some v) out header).trace) ∧
    (∀ rs er, Event.decode rs er ∉ (c.do net uri method (some v) out header).trace) ∧
    (c.do net uri method (some v) out header).out = out := by
  have hrun := do_run net c uri method (some v) out header
  generalize c.do net uri method (some v) out header = r at hrun ⊢
  cases hrun <;> simp_all [finish, encodeTrace, Encoded, Sent, Errorf, GoError.Unwrap, GoError.Error]

theorem do_encode_failure_witness :
    (brokenEncoderClient.do net200 "https://example/create" "POST" (some "a") (some "") []).trace
      = [Event.encode (builtRequest "https://example/create" "POST" []) (some (.base "boom")),
          Event.release] :=
  (do_encode_failure net200 brokenEncoderClient "https://example/create" "POST" "a" (some "") []
    (fun req _ => (req, some (.base "boom"))) (.base "boom") rfl rfl).2.2.2.1

/-- Claim C3: when the transport returns an error `e`, `do` returns the error
`send request: ` wrapping `e`; the status code is not examined, neither the
error handler nor the response decoder is invoked, and the output destination
keeps its content. -/
theorem do_send_failure {α β : Type} (net : Network) (c : Client α β) (uri method : String)
    (input : Option α) (out : Option β) (header : Header) (req : Request) (resp : Response)
    (e : GoError)
    (hsend : Event.send req resp (some e) ∈ (c.do net uri method input out header).trace) :
    (c.do net uri method input out header).outcome
        = Outcome.returned (some (Errorf "send request: " e)) ∧
    (Errorf "send request: " e).Unwrap = some e ∧
    (Errorf "send request: " e).Error = "send request: " ++ e.Error ∧
    (∀ code, Event.status code ∉ (c.do net uri method input out header).trace) ∧
    (∀ rs ret, Event.handle rs ret ∉ (c.do net uri method input out header).trace) ∧
    (∀ rs er, Event.decode rs er ∉ (c.do net uri method input out header).trace) ∧
    (c.do net uri method input out header).out = out := by
  have hrun := do_run net c uri method input out header
  generalize c.do net uri method input out header = r at hrun hsend ⊢
  cases input <;> cases hrun <;>
    simp_all [finish, encodeTrace, Errorf, GoError.Unwrap, GoError.Error]

theorem do_send_failure_witness :
    (sampleClient.do netDown "https://example/ok" "GET" none (some "") []).outcome
      = Outcome.returned (some (Errorf "send request: " (.base "dial failed"))) :=
  (do_send_failure netDown sampleClient "https://example/ok" "GET" none (some "") []
    (builtRequest "https://example/ok" "GET" []) AcquireResponse (.base "dial failed")
    (by decide)).1

/-- Claim C4: a run of `do` that does not panic and in which no phase fails
returns nil, having executed the encode phase exactly when an input was
supplied and the decode phase exactly when an output destination was supplied;
and whenever `do` returns a non-nil error, exactly one phase failed, and that
phase is the last one executed. -/
theorem do_error_phases {α β : Type} (net : Network) (c : Client α β) (uri method : String)
    (input : Option α) (out : Option β) (header : Header) :
    ((c.do net uri method input out header).outcome ≠ Outcome.panicked →
      failedPhases (c.do net uri method input out header).trace = [] →
        (c.do net uri method input out header).outcome = Outcome.returned none ∧
        executedPhases (c.do net uri method input out header).trace
          = (if input.isSome then [Phase.encode] else []) ++ [Phase.send, Phase.status]
              ++ (if out.isSome then [Phase.decode] else [])) ∧
    (∀ e, (c.do net uri method input out header).outcome = Outcome.returned (some e) →
      ∃ p, failedPhases (c.do net uri method input out header).trace = [p] ∧
        (executedPhases (c.do net uri method input out header).trace).getLast? = some p) := by
  have hrun := do_run net c uri method input out header
  generalize c.do net uri method input out header = r at hrun ⊢
  cases input <;> cases hrun <;>
    simp_all [finish, encodeTrace, failedPhases, executedPhases, Event.phase, Event.failed,
      List.filter_cons, List.filterMap_cons]

theorem do_error_phases_witness :
    (sampleClient.do net200 "https://example/ok" "GET" none (some "") []).outcome
        = Outcome.returned none ∧
    ∃ p, failedPhases
        (brokenDecoderClient.do net200 "https://example/ok" "GET" none (some "") []).trace = [p] ∧
      (executedPhases
        (brokenDecoderClient.do net200 "https://example/ok" "GET" none (some "") []).trace).getLast?
        = some p :=
  ⟨((do_error_phases net200 sampleClient "https://example/ok" "GET" none (some "") []).1
      (by decide) (by decide)).1,
    (do_error_phases net200 brokenDecoderClient "https://example/ok" "GET" none (some "") []).2
      (Errorf "decode response: " (.base "bad body")) (by decide)⟩

/-- Claim C6 fails as stated: the message of an encode failure with cause
`boom` is `encode request: boom`; the text `encode request failed` is not a
prefix of it. -/
theorem encode_label_is_not_failed :
    (brokenEncoderClient.do net200 "https://example/create" "POST" (some "a") none []).outcome
        = Outcome.returned (some (Errorf "encode request: " (.base "boom"))) ∧
    (Errorf "encode request: " (.base "boom")).Error = "encode request: boom" ∧
    ¬ ("encode request failed".data <+: (Errorf "encode request: " (.base "boom")).Error.data) := by
  refine ⟨by decide, by decide, by decide⟩

theorem label_head_ne (a b : Char) (s t m₁ m₂ : String) (hab : a ≠ b)
    (hs : s.data.head? = some a) (ht : t.data.head? = some b) : s ++ m₁ ≠ t ++ m₂ := by
  intro h
  have hd := congrArg (fun x => x.data.head?) h
  simp only [String.data_append] at hd
  cases hsd : s.data with
  | nil => simp [hsd] at hs
  | cons x xs =>
    cases htd : t.data with
    | nil => simp [htd] at ht
    | cons y ys =>
      simp [hsd, htd] at hd hs ht
      exact hab (hs ▸ ht ▸ hd)

/-- Claim C6, as the code has it: the error returned for a failing encode,
send or decode phase with cause `e` wraps `e`, and its message is the label
`encode request: `, `send request: ` or `decode response: ` followed by the
message of `e`; the labels are pairwise distinct, and so are the messages of
two different phases whatever the causes. -/
theorem do_error_labels {α β : Type} (net : Network) (c : Client α β) (uri method : String)
    (input : Option α) (out : Option β) (header : Header) :
    (∀ rq e, Event.encode rq (some e) ∈ (c.do net uri method input out header).trace →
      ∃ err, (c.do net uri method input out header).outcome = Outcome.returned (some err) ∧
        err.Error = "encode request: " ++ e.Error ∧ err.Unwrap = some e) ∧
    (∀ rq rs e, Event.send rq rs (some e) ∈ (c.do net uri method input out header).trace →
      ∃ err, (c.do net uri method input out header).outcome = Outcome.returned (some err) ∧
        err.Error = "send request: " ++ e.Error ∧ err.Unwrap = some e) ∧
    (∀ rs e, Event.decode rs (some e) ∈ (c.do net uri method input out header).trace →
      ∃ err, (c.do net uri method input out header).outcome = Outcome.returned (some err) ∧
        err.Error = "decode response: " ++ e.Error ∧ err.Unwrap = some e) ∧
    ("encode request: " ≠ "send request: " ∧ "encode request: " ≠ "decode response: " ∧
      "send request: " ≠ "decode response: ") ∧
    (∀ m₁ m₂ : String, "encode request: " ++ m₁ ≠ "send request: " ++ m₂ ∧
      "encode request: " ++ m₁ ≠ "decode response: " ++ m₂ ∧
      "send request: " ++ m₁ ≠ "decode response: " ++ m₂) := by
  refine ⟨?_, ?_, ?_, by decide, fun m₁ m₂ =>
    ⟨label_head_ne 'e' 's' _ _ m₁ m₂ (by decide) rfl rfl,
     label_head_ne 'e' 'd' _ _ m₁ m₂ (by decide) rfl rfl,
     label_head_ne 's' 'd' _ _ m₁ m₂ (by decide) rfl rfl⟩⟩
  all_goals
    have hrun := do_run net c uri method input out header
    generalize c.do net uri method input out header = r at hrun ⊢
    cases input <;> cases hrun <;>
      simp_all [finish, encodeTrace, Errorf, GoError.Unwrap, GoError.Error]

theorem do_error_labels_witness :
    ∃ err, (brokenDecoderClient.do net200 "https://example/ok" "GET" none (some "") []).outcome
        = Outcome.returned (some err) ∧
      err.Error = "decode response: " ++ (GoError.base "bad body").Error ∧
      err.Unwrap = some (GoError.base "bad body") :=
  (do_error_labels net200 brokenDecoderClient "https://example/ok" "GET" none (some "") []).2.2.1
    ⟨200, "hello"⟩ (.base "bad body") (by decide)

/-! ## Claims about `New` and the verb methods -/

/-- Claim C7: with a non-empty default name and a non-zero default timeout,
the client built by `New` from no `Config`, one, or several (the first one
counts) has a transport handle whose name and timeouts are non-zero, and
non-nil encoder, decoder and error handler; each of these is the supplied
value when that is non-zero and the module-level default otherwise, the two
timeouts independently, and `NoDefaultUserAgentHeader` is passed through. -/
theorem New_effective {α β : Type} (D : Defaults α β) (config : List (Config α β))
    (hUA : D.defaultUserAgent ≠ "") (hT : D.defaultTimeout ≠ 0) :
    New D config = New D [config.head?.getD {}] ∧
    ∃ fc, (New D config).fastClient = some fc ∧
      fc.Name = (if (config.head?.getD {}).Name = "" then D.defaultUserAgent
        else (config.head?.getD {}).Name) ∧
      fc.ReadTimeout = (if (config.head?.getD {}).ReadTimeout = 0 then D.defaultTimeout
        else (config.head?.getD {}).ReadTimeout) ∧
      fc.WriteTimeout = (if (config.head?.getD {}).WriteTimeout = 0 then D.defaultTimeout
        else (config.head?.getD {}).WriteTimeout) ∧
      fc.NoDefaultUserAgentHeader = (config.head?.getD {}).NoDefaultUserAgentHeader ∧
      (New D config).requestEncoder
        = some ((config.head?.getD {}).RequestEncoder.getD D.jsonRequestEncoder) ∧
      (New D config).responseDecoder
        = some ((config.head?.getD {}).ResponseDecoder.getD D.jsonResponseDecoder) ∧
      (New D config).errorHandler
        = some ((config.head?.getD {}).ErrorHandler.getD D.defaultErrorHandler) ∧
      fc.Name ≠ "" ∧ fc.ReadTimeout ≠ 0 ∧ fc.WriteTimeout ≠ 0 := by
  have h1 : New D config = New D [config.head?.getD {}] := by
    cases config <;> rfl
  refine ⟨h1, ?_⟩
  rw [h1]
  generalize config.head?.getD {} = cfg
  obtain ⟨name, rt, wt, nd, re, rd, eh⟩ := cfg
  refine ⟨_, rfl, ?_⟩
  cases re <;> cases rd <;> cases eh <;>
    by_cases hn : name = "" <;> by_cases hr : rt = 0 <;> by_cases hw : wt = 0 <;>
    simp [New, hn, hr, hw, hUA, hT]

theorem New_effective_witness :
    ∃ fc, (New sampleDefaults [{ Name := "", ReadTimeout := -5 }]).fastClient = some fc ∧
      fc.Name = "gofast" ∧ fc.ReadTimeout = -5 ∧ fc.WriteTimeout = 30 := by
  obtain ⟨fc, h0, h1, h2, h3, -⟩ :=
    (New_effective sampleDefaults [{ Name := "", ReadTimeout := -5 }]
      (by decide) (by decide)).2
  exact ⟨fc, h0, by simpa using h1, by simpa using h2, by simpa [sampleDefaults] using h3⟩

/-- Claim C8: the response decoder is invoked at most once per run, only with
a non-nil output destination and only as the last step before the release,
after the encoder (if an input was supplied) and the transport succeeded and
a status code in [200,299] was read; a run without a decoder call leaves the
output destination as it was, in particular every run that returns an error
from the encode, send or status phase. -/
theorem do_output_frame {α β : Type} (net : Network) (c : Client α β) (uri method : String)
    (input : Option α) (out : Option β) (header : Header) :
    ((c.do net uri method input out header).trace.filter Event.isDecode).length ≤ 1 ∧
    (∀ rs er, Event.decode rs er ∈ (c.do net uri method input out header).trace →
      out ≠ none ∧ 200 ≤ rs.statusCode ∧ rs.statusCode ≤ 299 ∧
      ∃ rq, (c.do net uri method input out header).trace
        = encodeTrace input (builtRequest uri method header)
            ++ [Event.send rq rs none, Event.status rs.statusCode, Event.decode rs er,
                Event.release]) ∧
    ((∀ rs er, Event.decode rs er ∉ (c.do net uri method input out header).trace) →
      (c.do net uri method input out header).out = out) ∧
    (∀ e p, (c.do net uri method input out header).outcome = Outcome.returned (some e) →
      failedPhases (c.do net uri method input out header).trace = [p] → p ≠ Phase.decode →
      (c.do net uri method input out header).out = out ∧
      ∀ rs er, Event.decode rs er ∉ (c.do net uri method input out header).trace) := by
  have hrun := do_run net c uri method input out header
  generalize c.do net uri method input out header = r at hrun ⊢
  cases input <;> cases hrun <;>
    simp_all [finish, encodeTrace, failedPhases, Event.phase, Event.failed, Event.isDecode,
      List.filter_cons, List.filterMap_cons]

theorem do_output_frame_witness :
    (sampleClient.do net404 "https://example/missing" "GET" none (some "dest") []).out
      = some "dest" :=
  ((do_output_frame net404 sampleClient "https://example/missing" "GET" none (some "dest")
      []).2.2.2 (.base "not found") Phase.status (by decide) (by decide) (by decide)).1

/-- Claim C9: `Get` is `do` with the method `GET` and no input, and `Post`,
`Put`, `Patch`, `Delete` are `do` with the same arguments and the method
`POST`, `PUT`, `PATCH`, `DELETE`; a run of `Get` has no call of the request
encoder, whatever the client. -/
theorem verbs_delegate {α β : Type} (net : Network) (c : Client α β) (uri : String)
    (input : Option α) (out : Option β) (header : Header) :
    c.Get net uri out header = c.do net uri "GET" none out header ∧
    c.Post net uri input out header = c.do net uri "POST" input out header ∧
    c.Put net uri input out header = c.do net uri "PUT" input out header ∧
    c.Patch net uri input out header = c.do net uri "PATCH" input out header ∧
    c.Delete net uri input out header = c.do net uri "DELETE" input out header ∧
    ∀ rq er, Event.encode rq er ∉ (c.Get net uri out header).trace := by
  refine ⟨rfl, rfl, rfl, rfl, rfl, ?_⟩
  unfold Client.Get
  have hrun := do_run net c uri MethodGet none out header
  generalize c.do net uri MethodGet none out header = r at hrun ⊢
  cases hrun <;> simp_all [finish, encodeTrace]

/-- Claim C10: when the transport returned a response with a status code
outside [200,299] and the configured error handler returns nil for it, `do`
returns nil without a call of the response decoder and the output destination
keeps its content; and when the error handler never returns nil, a nil return
of `do` means that the status code of the response was in [200,299]. -/
theorem do_nil_from_handler {α β : Type} (net : Network) (c : Client α β) (uri method : String)
    (input : Option α) (out : Option β) (header : Header) (h : ErrorHandler)
    (hh : c.errorHandler = some h) :
    (∀ rq rs, Event.send rq rs none ∈ (c.do net uri method input out header).trace →
      ¬ (200 ≤ rs.statusCode ∧ rs.statusCode ≤ 299) → h rs = none →
        (c.do net uri method input out header).outcome = Outcome.returned none ∧
        (∀ r er, Event.decode r er ∉ (c.do net uri method input out header).trace) ∧
        (c.do net uri method input out header).out = out) ∧
    ((∀ rs, h rs ≠ none) →
      (c.do net uri method input out header).outcome = Outcome.returned none →
      ∃ rq rs, Event.send rq rs none ∈ (c.do net uri method input out header).trace ∧
        200 ≤ rs.statusCode ∧ rs.statusCode ≤ 299) := by
  have hrun := do_run net c uri method input out header
  generalize c.do net uri method input out header = r at hrun ⊢
  cases input <;> cases hrun <;> simp_all [finish, encodeTrace]
  all_goals first | (intros; omega) | (intro _; exact ⟨_, _, ⟨rfl, rfl⟩, ‹_ ∧ _›⟩)

theorem do_nil_from_handler_witness :
    (lenientClient.do net404 "https://example/missing" "GET" none (some "dest") []).outcome
        = Outcome.returned none ∧
    (∀ r er, Event.decode r er ∉
      (lenientClient.do net404 "https://example/missing" "GET" none (some "dest") []).trace) ∧
    (lenientClient.do net404 "https://example/missing" "GET" none (some "dest") []).out
        = some "dest" :=
  (do_nil_from_handler net404 lenientClient "https://example/missing" "GET" none (some "dest") []
    (fun _ => none) rfl).1 (builtRequest "https://example/missing" "GET" [])
    ⟨404, "not found"⟩ (by decide) (by decide) rfl

end Gofast
